import Mathlib

/-!
Verification development for the matching subsystem of the worker-uz backend:
the score calculator (single-pair path in `MatchingService`, batch path in
`MatchingRepository`), the cache truncation and single-flight lock protocol in
`MatchingCacheService`, and the pagination loop of the recalculation
orchestrator.  JavaScript numbers are modelled as exact rationals; JavaScript
`null`/`undefined` as `Option`; JavaScript truthiness of numbers and strings
is made explicit by `numOr`, `numTruthy` and `strTruthy`.
-/

/-- JS `Math.round`: rounds to the nearest integer, halves toward positive
infinity, i.e. `⌊x + 1/2⌋`. -/
def jsRound (x : ℚ) : ℤ := Int.floor (x + 1/2)

/-- The two-decimal rounding `Math.round(x * 100) / 100` used throughout the
scoring code. -/
def round2 (x : ℚ) : ℚ := (jsRound (x * 100) : ℚ) / 100

/-- JS `o || d` where `o` is a number-or-null: `null` and `0` are falsy. -/
def numOr (o : Option ℚ) (d : ℚ) : ℚ :=
  match o with
  | some x => if x = 0 then d else x
  | none => d

/-- JS truthiness of a number-or-null value: truthy iff present and nonzero. -/
def numTruthy (o : Option ℚ) : Bool :=
  match o with
  | some x => decide (x ≠ 0)
  | none => false

/-- JS truthiness of a string-or-null value: truthy iff present and nonempty. -/
def strTruthy (o : Option String) : Bool :=
  match o with
  | some s => decide (s ≠ "")
  | none => false

/-- One row of the `workerSkill` table (the field the scorer reads). -/
structure WorkerSkill where
  skillCode : String
deriving DecidableEq

/-- One row of the `vacancySkill` table (the fields the scorer reads). -/
structure VacancySkill where
  skillCode : String
  isRequired : Bool
deriving DecidableEq

/-- One row of the `workerEducation` table (the field the scorer reads). -/
structure WorkerEducation where
  degreeLevel : String
deriving DecidableEq

/-- One row of the `workerExperience` table (the fields the scorer reads).
`startYear`/`endYear` are nullable numbers. -/
structure WorkerExperience where
  startYear : Option ℚ
  endYear : Option ℚ
deriving DecidableEq

/-- The vacancy fields read by the scorer.  `salaryMin`/`salaryMax` are Prisma
`Decimal`-or-null: as objects they are truthy whenever present (even for the
value 0), hence they are tested with `= none` rather than `numTruthy`. -/
structure Vacancy where
  experienceMinYears : Option ℚ
  experienceMaxYears : Option ℚ
  educationMinLevel : Option String
  locationCity : Option String
  locationState : Option String
  isRemote : Bool
  salaryMin : Option ℚ
  salaryMax : Option ℚ
  salaryIsNegotiable : Bool
deriving DecidableEq

/-- The worker-profile fields read by the scorer. -/
structure WorkerProfile where
  city : Option String
  state : Option String
deriving DecidableEq

/-- The components returned by `computeScore` / `calculateScoreComponents`. -/
structure ScoreComponents where
  skillScore : ℚ
  experienceScore : ℚ
  educationScore : ℚ
  locationScore : ℚ
  salaryScore : ℚ
  totalScore : ℚ
  skillMatchCount : ℕ
  skillRequiredCount : ℕ
  isRecommended : Bool
deriving DecidableEq

/-- The ordered education ladder used by both education scorers. -/
def educationLevels : List String :=
  ["HIGH_SCHOOL", "DIPLOMA", "BACHELOR", "MASTER", "DOCTORATE"]

/-- JS `educationLevels.indexOf(s)`: the index of the first occurrence of `s`,
or `-1` when absent. -/
def levelIndexOf (s : String) : ℤ :=
  match educationLevels.findIdx? (fun t => t == s) with
  | some i => (i : ℤ)
  | none => -1

/-- The total experience years `Σ ((exp.endYear || currentYear) - (exp.startYear || 0))`
computed identically by both experience scorers (the JS `new Date().getFullYear()`
is threaded in as the explicit parameter `currentYear`). -/
def totalExperienceYears (workerExperience : List WorkerExperience) (currentYear : ℚ) : ℚ :=
  workerExperience.foldl
    (fun sum exp => sum + (numOr exp.endYear currentYear - numOr exp.startYear 0)) 0

namespace MatchingService

/-- `MatchingService.calculateSkillScore` (matching.service.ts lines 267-277). -/
def calculateSkillScore (workerSkills : List WorkerSkill) (vacancySkills : List VacancySkill)
    (requiredSkills : List VacancySkill) : ℚ :=
  if requiredSkills.length = 0 then 100
  else if vacancySkills.length = 0 then 50
  else
    let matchedSkills := workerSkills.filter (fun ws =>
      vacancySkills.any (fun vs => vs.skillCode == ws.skillCode))
    let matchRatio : ℚ := (matchedSkills.length : ℚ) / (requiredSkills.length : ℚ)
    round2 (min matchRatio 1 * 100)

/-- `MatchingService.calculateExperienceScore` (matching.service.ts lines 279-302).
Where the JS divides by zero (possible only in the deficit branch with
`minYears = 0`, reachable only for a negative `totalYears`), the quotient is
`Infinity` and the clamped score is 0; the zero tests make that explicit. -/
def calculateExperienceScore (workerExperience : List WorkerExperience) (vacancy : Vacancy)
    (currentYear : ℚ) : ℚ :=
  let minYears := numOr vacancy.experienceMinYears 0
  let maxYears := numOr vacancy.experienceMaxYears (minYears + 10)
  if minYears = 0 ∧ maxYears = 0 then 100
  else
    let totalYears := totalExperienceYears workerExperience currentYear
    if minYears ≤ totalYears ∧ totalYears ≤ maxYears then 100
    else if totalYears < minYears then
      if minYears = 0 then 0
      else
        let deficit := minYears - totalYears
        let deviationPercent := deficit / minYears
        max 0 (100 - deviationPercent * 100)
    else
      if maxYears = 0 then 0
      else
        let excess := totalYears - maxYears
        let deviationPercent := excess / maxYears
        max 0 (100 - deviationPercent * 100)

/-- `MatchingService.calculateEducationScore` (matching.service.ts lines 304-320). -/
def calculateEducationScore (workerEducation : List WorkerEducation) (vacancy : Vacancy) : ℚ :=
  if ¬ strTruthy vacancy.educationMinLevel then 50
  else
    let vacancyLevelIndex := levelIndexOf (vacancy.educationMinLevel.getD "")
    if vacancyLevelIndex = -1 then 50
    else if workerEducation.any (fun edu => levelIndexOf edu.degreeLevel ≥ vacancyLevelIndex) then
      100
    else max 0 (100 - (vacancyLevelIndex : ℚ) * 25)

/-- `MatchingService.calculateLocationScore` (matching.service.ts lines 322-339). -/
def calculateLocationScore (workerProfile : Option WorkerProfile) (vacancy : Vacancy) : ℚ :=
  let profileCity := workerProfile.bind (fun p => p.city)
  if ¬ strTruthy vacancy.locationCity ∨ ¬ strTruthy profileCity then 50
  else if (profileCity.getD "").toLower = (vacancy.locationCity.getD "").toLower then 100
  else
    let profileState := workerProfile.bind (fun p => p.state)
    if strTruthy profileState ∧ strTruthy vacancy.locationState ∧
        (profileState.getD "").toLower = (vacancy.locationState.getD "").toLower then 70
    else if vacancy.isRemote then 90
    else 30

/-- `MatchingService.calculateSalaryScore` (matching.service.ts lines 341-362). -/
def calculateSalaryScore (workerProfile : Option WorkerProfile) (vacancy : Vacancy) : ℚ :=
  if vacancy.salaryMin = none ∧ vacancy.salaryMax = none then 50
  else if vacancy.salaryIsNegotiable then 80
  else
    let salaryMin := numOr vacancy.salaryMin 0
    let salaryMax := numOr vacancy.salaryMax (salaryMin * 2)
    if salaryMin = 0 ∧ salaryMax = 0 then 50
    else
      let midPoint := (salaryMin + salaryMax) / 2
      let deviation := (0.5 : ℚ) * midPoint
      if deviation = 0 then 100
      else
        let distance := |0 - midPoint|
        let deviationPercent := distance / deviation
        max 0 (round2 ((1 - deviationPercent) * 100))

/-- `MatchingService.computeScore` (matching.service.ts lines 227-265),
with `MIN_SCORE_THRESHOLD = 70`. -/
def computeScore (workerSkills : List WorkerSkill) (workerEducation : List WorkerEducation)
    (workerExperience : List WorkerExperience) (vacancySkills : List VacancySkill)
    (vacancy : Vacancy) (workerProfile : Option WorkerProfile) (currentYear : ℚ) :
    ScoreComponents :=
  let requiredSkills := vacancySkills.filter (fun s => s.isRequired)
  let skillScore := calculateSkillScore workerSkills vacancySkills requiredSkills
  let experienceScore := calculateExperienceScore workerExperience vacancy currentYear
  let educationScore := calculateEducationScore workerEducation vacancy
  let locationScore := calculateLocationScore workerProfile vacancy
  let salaryScore := calculateSalaryScore workerProfile vacancy
  let totalScore := round2 (skillScore * 0.40 + experienceScore * 0.25 +
    educationScore * 0.15 + locationScore * 0.10 + salaryScore * 0.10)
  { skillScore := skillScore
    experienceScore := experienceScore
    educationScore := educationScore
    locationScore := locationScore
    salaryScore := salaryScore
    totalScore := totalScore
    skillMatchCount := (workerSkills.filter (fun ws =>
      vacancySkills.any (fun vs => vs.skillCode == ws.skillCode))).length
    skillRequiredCount := requiredSkills.length
    isRecommended := decide (totalScore ≥ 70) }

end MatchingService

namespace MatchingRepository

/-- `MatchingRepository.calculateSkillScore` (matching.repository.ts lines 375-384):
no required-skill short-circuit and no cap at 1, denominator is all vacancy
skills. -/
def calculateSkillScore (workerSkills : List WorkerSkill)
    (vacancySkills : List VacancySkill) : ℚ :=
  if vacancySkills.length = 0 then 50
  else
    let matchedSkills := workerSkills.filter (fun ws =>
      vacancySkills.any (fun vs => vs.skillCode == ws.skillCode))
    let matchRatio : ℚ := (matchedSkills.length : ℚ) / (vacancySkills.length : ℚ)
    round2 (matchRatio * 100)

/-- `MatchingRepository.calculateExperienceScore` (matching.repository.ts lines
386-402): linear penalties of 10 points per missing year and 5 points per
excess year. -/
def calculateExperienceScore (workerExperience : List WorkerExperience) (vacancy : Vacancy)
    (currentYear : ℚ) : ℚ :=
  if ¬ numTruthy vacancy.experienceMinYears ∧ ¬ numTruthy vacancy.experienceMaxYears then 50
  else
    let totalYears := totalExperienceYears workerExperience currentYear
    if numTruthy vacancy.experienceMinYears ∧
        totalYears < vacancy.experienceMinYears.getD 0 then
      max 0 (100 - (vacancy.experienceMinYears.getD 0 - totalYears) * 10)
    else if numTruthy vacancy.experienceMaxYears ∧
        vacancy.experienceMaxYears.getD 0 < totalYears then
      max 0 (100 - (totalYears - vacancy.experienceMaxYears.getD 0) * 5)
    else 100

/-- `MatchingRepository.calculateEducationScore` (matching.repository.ts lines
404-420); textually identical to the service version. -/
def calculateEducationScore (workerEducation : List WorkerEducation) (vacancy : Vacancy) : ℚ :=
  if ¬ strTruthy vacancy.educationMinLevel then 50
  else
    let vacancyLevelIndex := levelIndexOf (vacancy.educationMinLevel.getD "")
    if vacancyLevelIndex = -1 then 50
    else if workerEducation.any (fun edu => levelIndexOf edu.degreeLevel ≥ vacancyLevelIndex) then
      100
    else max 0 (100 - (vacancyLevelIndex : ℚ) * 25)

/-- `MatchingRepository.calculateLocationScore` (matching.repository.ts lines
422-439); textually identical to the service version. -/
def calculateLocationScore (workerProfile : Option WorkerProfile) (vacancy : Vacancy) : ℚ :=
  let profileCity := workerProfile.bind (fun p => p.city)
  if ¬ strTruthy vacancy.locationCity ∨ ¬ strTruthy profileCity then 50
  else if (profileCity.getD "").toLower = (vacancy.locationCity.getD "").toLower then 100
  else
    let profileState := workerProfile.bind (fun p => p.state)
    if strTruthy profileState ∧ strTruthy vacancy.locationState ∧
        (profileState.getD "").toLower = (vacancy.locationState.getD "").toLower then 70
    else if vacancy.isRemote then 90
    else 30

/-- `MatchingRepository.calculateSalaryScore` (matching.repository.ts lines
441-450): flat 80 whenever a nonzero salary bound is declared. -/
def calculateSalaryScore (workerProfile : Option WorkerProfile) (vacancy : Vacancy) : ℚ :=
  if vacancy.salaryMin = none ∧ vacancy.salaryMax = none then 50
  else
    let expectedMin := numOr vacancy.salaryMin 0
    let expectedMax := numOr vacancy.salaryMax (expectedMin * 2)
    if expectedMin = 0 ∧ expectedMax = 0 then 50
    else 80

/-- `MatchingRepository.calculateScoreComponents` (matching.repository.ts lines
331-373): same weighted total, but `isRecommended` additionally requires that
at least half of the required skills are matched. -/
def calculateScoreComponents (workerSkills : List WorkerSkill)
    (workerEducation : List WorkerEducation) (workerExperience : List WorkerExperience)
    (vacancySkills : List VacancySkill) (vacancy : Vacancy)
    (workerProfile : Option WorkerProfile) (currentYear : ℚ) : ScoreComponents :=
  let skillScore := calculateSkillScore workerSkills vacancySkills
  let experienceScore := calculateExperienceScore workerExperience vacancy currentYear
  let educationScore := calculateEducationScore workerEducation vacancy
  let locationScore := calculateLocationScore workerProfile vacancy
  let salaryScore := calculateSalaryScore workerProfile vacancy
  let totalScore := round2 (skillScore * 0.40 + experienceScore * 0.25 +
    educationScore * 0.15 + locationScore * 0.10 + salaryScore * 0.10)
  let requiredSkills := vacancySkills.filter (fun s => s.isRequired)
  let matchedRequiredSkills := workerSkills.filter (fun ws =>
    requiredSkills.any (fun rs => rs.skillCode == ws.skillCode))
  { skillScore := skillScore
    experienceScore := experienceScore
    educationScore := educationScore
    locationScore := locationScore
    salaryScore := salaryScore
    totalScore := totalScore
    skillMatchCount := (workerSkills.filter (fun ws =>
      vacancySkills.any (fun vs => vs.skillCode == ws.skillCode))).length
    skillRequiredCount := requiredSkills.length
    isRecommended := decide (totalScore ≥ 70) &&
      decide ((requiredSkills.length : ℚ) * 0.5 ≤ (matchedRequiredSkills.length : ℚ)) }

end MatchingRepository

namespace MatchingCacheService

/-- The cached match summary (matching-cache.service.ts lines 11-24). -/
structure CachedMatchScore where
  workerId : String
  vacancyId : String
  totalScore : ℚ
  skillScore : ℚ
  experienceScore : ℚ
  educationScore : ℚ
  locationScore : ℚ
  salaryScore : ℚ
  skillMatchCount : ℕ
  skillRequiredCount : ℕ
  isRecommended : Bool
  cachedAt : String
deriving DecidableEq

/-- Descending order on `totalScore`, the order induced by the JS comparator
`(a, b) => b.totalScore - a.totalScore`. -/
def byScoreDesc (a b : CachedMatchScore) : Prop := b.totalScore ≤ a.totalScore

instance : DecidableRel byScoreDesc := fun a b =>
  inferInstanceAs (Decidable (b.totalScore ≤ a.totalScore))

instance : IsTotal CachedMatchScore byScoreDesc :=
  ⟨fun a b => le_total b.totalScore a.totalScore⟩

instance : IsTrans CachedMatchScore byScoreDesc :=
  ⟨fun _ _ _ hab hbc => le_trans hbc hab⟩

/-- The key-value store backing the match-list cache (the dedicated redis db;
keys are `worker:<id>` / `vacancy:<id>`). -/
def CacheStore : Type := String → Option (List CachedMatchScore)

/-- The list persisted by `setWorkerMatches` / `setVacancyMatches`: sort
descending by `totalScore`, truncate to `CACHE_LIMIT = 50` and restamp
`cachedAt` with the write time `now`. -/
def truncSortStamp (matchList : List CachedMatchScore) (now : String) : List CachedMatchScore :=
  ((List.insertionSort byScoreDesc matchList).take 50).map (fun m => { m with cachedAt := now })

/-- `setWorkerMatches` (matching-cache.service.ts lines 49-58): empty input is
not persisted at all; otherwise the sorted, truncated, restamped list is
written under `worker:<id>` (the 600s TTL is not modelled). -/
def setWorkerMatches (st : CacheStore) (workerId : String) (matchList : List CachedMatchScore)
    (now : String) : CacheStore :=
  if matchList.length = 0 then st
  else fun k => if k = "worker:" ++ workerId then some (truncSortStamp matchList now) else st k

/-- `setVacancyMatches` (matching-cache.service.ts lines 72-81); same as
`setWorkerMatches` under the `vacancy:<id>` key. -/
def setVacancyMatches (st : CacheStore) (vacancyId : String) (matchList : List CachedMatchScore)
    (now : String) : CacheStore :=
  if matchList.length = 0 then st
  else fun k => if k = "vacancy:" ++ vacancyId then some (truncSortStamp matchList now) else st k

/-- The lock portion of the redis store: `lock:<key>` maps to the owner token
currently holding the lease, if any. -/
def LockStore : Type := String → Option String

/-- `acquireLock` (matching-cache.service.ts lines 88-92): `SET lockKey owner
EX 10 NX` — succeeds iff no holder is present (the 10s lease expiry is not
modelled). -/
def acquireLock (st : LockStore) (key owner : String) : LockStore × Bool :=
  let lockKey := "lock:" ++ key
  match st lockKey with
  | none => ((fun k => if k = lockKey then some owner else st k), true)
  | some _ => (st, false)

/-- `releaseLock` (matching-cache.service.ts lines 94-104): the Lua script
deletes `lock:<key>` iff its current value equals the caller's owner token,
atomically; otherwise it leaves the store untouched. -/
def releaseLock (st : LockStore) (key owner : String) : LockStore :=
  let lockKey := "lock:" ++ key
  if st lockKey = some owner then (fun k => if k = lockKey then none else st k) else st

end MatchingCacheService

namespace Orchestrator

/-- The `items` field returned by `getActiveWorkersForVacancy` /
`getActiveVacanciesForWorker` (matching.repository.ts lines 120-162) over a
stable population `pop`: `skip ((page-1) * enforcedPageSize)`,
`take enforcedPageSize` with `enforcedPageSize = min(pageSize, 200)`. -/
def pageItems {α : Type} (pop : List α) (page pageSize : ℕ) : List α :=
  let enforcedPageSize := min pageSize 200
  (pop.drop ((page - 1) * enforcedPageSize)).take enforcedPageSize

/-- The `while (true)` pagination loop shared by `recalcForWorker`
(matching.service.ts lines 84-122) and `recalcForVacancy` (lines 124-170), with
`BATCH_SIZE = 200`, over a stable population: fetch the page; stop on an empty
page; otherwise recalculate the page's batch (every item of a fetched page is
processed, so the batch returns the page's item count), accumulate, and stop
when the page was short.  Returns `(totalCalculated, batchCount)`. -/
def recalcLoop {α : Type} (pop : List α) (page : ℕ) : ℕ × ℕ :=
  if (pageItems pop page 200).length = 0 then (0, 0)
  else if h2 : (pageItems pop page 200).length < 200 then ((pageItems pop page 200).length, 1)
  else
    ((pageItems pop page 200).length + (recalcLoop pop (page + 1)).1,
      1 + (recalcLoop pop (page + 1)).2)
termination_by (pop.length + 200) - page * 200
decreasing_by
  all_goals
    have hlen : (pageItems pop page 200).length ≤ pop.length - (page - 1) * 200 := by
      simp [pageItems]
    omega

/-- The `{calculated, batch}` pair returned by a recalculation entry point run
against the stable population `pop` (pages start at 1). -/
def recalcResult {α : Type} (pop : List α) : ℕ × ℕ := recalcLoop pop 1

/-- The number of fetched non-empty pages for a population of `n` items with
page size 200. -/
def pageCount (n : ℕ) : ℕ := if n = 0 then 0 else (n - 1) / 200 + 1

end Orchestrator

/-- The database state visible to `MatchingService.calculateScore`: the lookup
tables read by the six parallel fetches, the `matchScore` table keyed by the
`(workerId, vacancyId)` composite unique key, and the audit sink. -/
structure Db where
  vacancies : String → Option Vacancy
  workerProfiles : String → Option WorkerProfile
  workerSkillsTbl : String → List WorkerSkill
  workerEducationTbl : String → List WorkerEducation
  workerExperienceTbl : String → List WorkerExperience
  vacancySkillsTbl : String → List VacancySkill
  matchScores : String × String → Option ScoreComponents
  auditLog : List String

/-- The error kinds `calculateScore` can surface. -/
inductive CalcError where
  | vacancyNotFound
deriving DecidableEq

namespace MatchingService

/-- `MatchingService.calculateScore` (matching.service.ts lines 35-82) as a
state transformer on `Db`: fetch the vacancy, the worker profile and the four
feature lists; throw `VACANCY_NOT_FOUND` when the vacancy is absent (the only
existence check the code performs); otherwise compute the components, upsert
the `(workerId, vacancyId)` row, append the audit event and return the
components. -/
def calculateScore (db : Db) (workerId vacancyId : String) (currentYear : ℚ) :
    Db × Except CalcError ScoreComponents :=
  match db.vacancies vacancyId with
  | none => (db, Except.error CalcError.vacancyNotFound)
  | some vacancy =>
    let scores := computeScore (db.workerSkillsTbl workerId) (db.workerEducationTbl workerId)
      (db.workerExperienceTbl workerId) (db.vacancySkillsTbl vacancyId) vacancy
      (db.workerProfiles workerId) currentYear
    let db' := { db with
      matchScores := fun p => if p = (workerId, vacancyId) then some scores else db.matchScores p
      auditLog := db.auditLog ++ ["MATCH_SCORE_CALCULATED"] }
    (db', Except.ok scores)

end MatchingService

namespace SingleFlight

open MatchingCacheService

/-- The local state of one `getOrSetVacancyCache` call in flight.  The program
counter marks the suspension points of the source (matching-cache.service.ts
lines 138-168): 0 = initial cache read; 1 = lock-acquisition attempt; 2 =
double-check read under the lock; 3 = `fetcher()` inside the lock; 4 =
`setVacancyMatches`; 5 = cooperative sleep after a denied lock; 6 = cache
re-check after the sleep; 7 = the uncached `fetcher()` fallback after
`LOCK_MAX_RETRIES = 5` exhausted attempts; 8 = the `finally` release followed
by returning the fetched list. -/
structure ClientState where
  pc : ℕ
  attempts : ℕ
  result : Option (List CachedMatchScore)
  fetches : ℕ
deriving DecidableEq

/-- The shared store and the two concurrent calls.  `cache` is the entry for
the one contended key, `lock` holds the index of the call owning the lease
(each call uses a distinct uuid owner token, modelled by the call index). -/
structure SysState where
  cache : Option (List CachedMatchScore)
  lock : Option ℕ
  c0 : ClientState
  c1 : ClientState
deriving DecidableEq

/-- One atomic step of one call.  `L` is the (deterministic) fetcher result and
`now` the stamp `setVacancyMatches` writes into `cachedAt`.  A finished call
(one with a `result`) does not move. -/
def stepClient (L : List CachedMatchScore) (now : String) (me : ℕ)
    (cache : Option (List CachedMatchScore)) (lock : Option ℕ) (c : ClientState) :
    Option (List CachedMatchScore) × Option ℕ × ClientState :=
  match c.result with
  | some _ => (cache, lock, c)
  | none =>
    match c.pc with
    | 0 =>
      match cache with
      | some v => (cache, lock, { c with result := some v })
      | none => (cache, lock, { c with pc := 1 })
    | 1 =>
      match lock with
      | none => (cache, some me, { c with pc := 2 })
      | some _ => (cache, lock, { c with pc := 5 })
    | 2 =>
      match cache with
      | some v =>
        (cache, if lock = some me then none else lock, { c with result := some v })
      | none => (cache, lock, { c with pc := 3 })
    | 3 => (cache, lock, { c with pc := 4, fetches := c.fetches + 1 })
    | 4 =>
      ((if L.length = 0 then cache else some (truncSortStamp L now)), lock, { c with pc := 8 })
    | 5 => (cache, lock, { c with pc := 6 })
    | 6 =>
      match cache with
      | some v => (cache, lock, { c with result := some v })
      | none =>
        if c.attempts + 1 < 5 then (cache, lock, { c with pc := 1, attempts := c.attempts + 1 })
        else (cache, lock, { c with pc := 7, attempts := c.attempts + 1 })
    | 7 => (cache, lock, { c with result := some L, fetches := c.fetches + 1 })
    | _ =>
      (cache, if lock = some me then none else lock, { c with result := some L })

/-- One step of the interleaved system: `who = false` steps call 0, `who =
true` steps call 1. -/
def step (L : List CachedMatchScore) (now : String) (s : SysState) (who : Bool) : SysState :=
  if who then
    let r := stepClient L now 1 s.cache s.lock s.c1
    { s with cache := r.1, lock := r.2.1, c1 := r.2.2 }
  else
    let r := stepClient L now 0 s.cache s.lock s.c0
    { s with cache := r.1, lock := r.2.1, c0 := r.2.2 }

/-- Run a schedule (an arbitrary interleaving of the two calls). -/
def run (L : List CachedMatchScore) (now : String) (sched : List Bool) (s : SysState) :
    SysState :=
  sched.foldl (step L now) s

/-- Both calls start at their initial cache read; the cache and the lock store
are empty (Scenario C's precondition). -/
def init : SysState :=
  { cache := none, lock := none
    c0 := { pc := 0, attempts := 0, result := none, fetches := 0 }
    c1 := { pc := 0, attempts := 0, result := none, fetches := 0 } }

/-- Total number of fetcher invocations across both calls. -/
def totalFetches (s : SysState) : ℕ := s.c0.fetches + s.c1.fetches

/-- The adversarial interleaving: call 0 acquires the lock and is then paused
after its double-check; call 1 performs its initial read, all five denied
lock attempts with their sleeps and re-checks, and the uncached fallback;
finally call 0 finishes. -/
def starvedSched : List Bool :=
  [false, false, false] ++ (List.replicate 17 true) ++ [false, false, false]

/-- The sequential interleaving: call 0 runs to completion, then call 1 runs. -/
def winnerFirstSched : List Bool := [false, false, false, false, false, false, true]

end SingleFlight

/-- Score-range membership: the interval [0, 100] claimed for all scores. -/
def inBounds (x : ℚ) : Prop := 0 ≤ x ∧ x ≤ 100

/-- A vacancy declaring nothing at all: no experience bounds, no education
minimum, no location, no salary bounds, not remote, not negotiable. -/
def emptyVacancy : Vacancy :=
  { experienceMinYears := none, experienceMaxYears := none, educationMinLevel := none,
    locationCity := none, locationState := none, isRemote := false,
    salaryMin := none, salaryMax := none, salaryIsNegotiable := false }

/-- The full conclusion of the bounds property: every sub-score and the total
score of both the single-pair and the batch path lie in [0, 100]. -/
def AllScoresInBounds (workerSkills : List WorkerSkill) (workerEducation : List WorkerEducation)
    (workerExperience : List WorkerExperience) (vacancySkills : List VacancySkill)
    (vacancy : Vacancy) (workerProfile : Option WorkerProfile) (currentYear : ℚ) : Prop :=
  inBounds (MatchingService.calculateSkillScore workerSkills vacancySkills
    (vacancySkills.filter (fun s => s.isRequired))) ∧
  inBounds (MatchingService.calculateExperienceScore workerExperience vacancy currentYear) ∧
  inBounds (MatchingService.calculateEducationScore workerEducation vacancy) ∧
  inBounds (MatchingService.calculateLocationScore workerProfile vacancy) ∧
  inBounds (MatchingService.calculateSalaryScore workerProfile vacancy) ∧
  inBounds ((MatchingService.computeScore workerSkills workerEducation workerExperience
    vacancySkills vacancy workerProfile currentYear).totalScore) ∧
  inBounds (MatchingRepository.calculateSkillScore workerSkills vacancySkills) ∧
  inBounds (MatchingRepository.calculateExperienceScore workerExperience vacancy currentYear) ∧
  inBounds (MatchingRepository.calculateEducationScore workerEducation vacancy) ∧
  inBounds (MatchingRepository.calculateLocationScore workerProfile vacancy) ∧
  inBounds (MatchingRepository.calculateSalaryScore workerProfile vacancy) ∧
  inBounds ((MatchingRepository.calculateScoreComponents workerSkills workerEducation
    workerExperience vacancySkills vacancy workerProfile currentYear).totalScore)

/-- A database in which vacancy `v1` exists (declaring nothing) but worker
`w1` is entirely missing: no profile, no skills, no education, no experience. -/
def dbNoWorker : Db :=
  { vacancies := fun id => if id = "v1" then some emptyVacancy else none
    workerProfiles := fun _ => none
    workerSkillsTbl := fun _ => []
    workerEducationTbl := fun _ => []
    workerExperienceTbl := fun _ => []
    vacancySkillsTbl := fun _ => []
    matchScores := fun _ => none
    auditLog := [] }

/-- A sample cached match summary used in the concurrency runs; its `cachedAt`
already carries the write-time stamp. -/
def sampleCached : MatchingCacheService.CachedMatchScore :=
  { workerId := "w1", vacancyId := "v1", totalScore := 80, skillScore := 80,
    experienceScore := 80, educationScore := 80, locationScore := 80, salaryScore := 80,
    skillMatchCount := 1, skillRequiredCount := 1, isRecommended := true, cachedAt := "t0" }

/-- Per-call invariant of the single-flight protocol: a call invokes the
fetcher at most once, and once it has, it is either about to persist (pc 4),
about to release and return (pc 8), or already finished. -/
def SingleFlight.clientOk (c : SingleFlight.ClientState) : Prop :=
  c.fetches ≤ 1 ∧ (c.fetches = 1 → c.pc = 4 ∨ c.pc = 8 ∨ c.result.isSome = true)

/-! ## Claim theorems -/

/-- C1: for every input, the totalScore returned by both score computations —
the single-pair path `MatchingService.computeScore` and the batch path
`MatchingRepository.calculateScoreComponents` — equals
`round2(0.40*skillScore + 0.25*experienceScore + 0.15*educationScore +
0.10*locationScore + 0.10*salaryScore)` over the respective sub-scores, where
`round2` rounds to 2 decimal places. -/
theorem c1_total_score_is_weighted_sum
    (workerSkills : List WorkerSkill) (workerEducation : List WorkerEducation)
    (workerExperience : List WorkerExperience) (vacancySkills : List VacancySkill)
    (vacancy : Vacancy) (workerProfile : Option WorkerProfile) (currentYear : ℚ) :
    (MatchingService.computeScore workerSkills workerEducation workerExperience
        vacancySkills vacancy workerProfile currentYear).totalScore =
      round2 (0.40 * MatchingService.calculateSkillScore workerSkills vacancySkills
            (vacancySkills.filter (fun s => s.isRequired)) +
          0.25 * MatchingService.calculateExperienceScore workerExperience vacancy currentYear +
          0.15 * MatchingService.calculateEducationScore workerEducation vacancy +
          0.10 * MatchingService.calculateLocationScore workerProfile vacancy +
          0.10 * MatchingService.calculateSalaryScore workerProfile vacancy) ∧
    (MatchingRepository.calculateScoreComponents workerSkills workerEducation workerExperience
        vacancySkills vacancy workerProfile currentYear).totalScore =
      round2 (0.40 * MatchingRepository.calculateSkillScore workerSkills vacancySkills +
          0.25 * MatchingRepository.calculateExperienceScore workerExperience vacancy currentYear +
          0.15 * MatchingRepository.calculateEducationScore workerEducation vacancy +
          0.10 * MatchingRepository.calculateLocationScore workerProfile vacancy +
          0.10 * MatchingRepository.calculateSalaryScore workerProfile vacancy) := by
  constructor
  · show round2 _ = round2 _
    congr 1
    ring
  · show round2 _ = round2 _
    congr 1
    ring

/-- C4: the single-pair path sets `isRecommended` iff `totalScore ≥ 70`; the
batch path sets it iff `totalScore ≥ 70` and the matched-required-skill count
is at least half the required-skill count — two distinct policies. -/
theorem c4_is_recommended_policies
    (workerSkills : List WorkerSkill) (workerEducation : List WorkerEducation)
    (workerExperience : List WorkerExperience) (vacancySkills : List VacancySkill)
    (vacancy : Vacancy) (workerProfile : Option WorkerProfile) (currentYear : ℚ) :
    ((MatchingService.computeScore workerSkills workerEducation workerExperience
        vacancySkills vacancy workerProfile currentYear).isRecommended = true ↔
      70 ≤ (MatchingService.computeScore workerSkills workerEducation workerExperience
        vacancySkills vacancy workerProfile currentYear).totalScore) ∧
    ((MatchingRepository.calculateScoreComponents workerSkills workerEducation workerExperience
        vacancySkills vacancy workerProfile currentYear).isRecommended = true ↔
      (70 ≤ (MatchingRepository.calculateScoreComponents workerSkills workerEducation
          workerExperience vacancySkills vacancy workerProfile currentYear).totalScore ∧
        ((vacancySkills.filter (fun s => s.isRequired)).length : ℚ) * 0.5 ≤
          ((workerSkills.filter (fun ws => (vacancySkills.filter (fun s => s.isRequired)).any
            (fun rs => rs.skillCode == ws.skillCode))).length : ℚ))) := by
  constructor
  · simp [MatchingService.computeScore, ge_iff_le]
  · simp [MatchingRepository.calculateScoreComponents, ge_iff_le]

/-- C10: in the single-pair path, whenever the vacancy is not
salary-negotiable and declares a salary bound whose (defaulted) midpoint is
positive, `calculateSalaryScore` returns 0; moreover the function never reads
the worker profile, so the sub-score is independent of every worker
attribute. -/
theorem c10_salary_score_degenerate
    (workerProfile workerProfile' : Option WorkerProfile) (vacancy : Vacancy)
    (hneg : vacancy.salaryIsNegotiable = false)
    (hdecl : ¬ (vacancy.salaryMin = none ∧ vacancy.salaryMax = none))
    (hmid : 0 < (numOr vacancy.salaryMin 0 +
      numOr vacancy.salaryMax (numOr vacancy.salaryMin 0 * 2)) / 2) :
    MatchingService.calculateSalaryScore workerProfile vacancy = 0 ∧
    MatchingService.calculateSalaryScore workerProfile vacancy =
      MatchingService.calculateSalaryScore workerProfile' vacancy := by
  refine ⟨?_, rfl⟩
  unfold MatchingService.calculateSalaryScore
  rw [if_neg hdecl, hneg]
  simp only [Bool.false_eq_true, if_false]
  set a := numOr vacancy.salaryMin 0 with ha
  set b := numOr vacancy.salaryMax (a * 2) with hb
  have hmid' : 0 < (a + b) / 2 := hmid
  have hzero : ¬ (a = 0 ∧ b = 0) := by
    rintro ⟨h1, h2⟩
    rw [h1, h2] at hmid'
    norm_num at hmid'
  rw [if_neg hzero]
  have hdev : ¬ ((0.5 : ℚ) * ((a + b) / 2) = 0) := by
    intro h
    have : (a + b) / 2 = 0 := by linarith
    rw [this] at hmid'
    exact lt_irrefl 0 hmid'
  rw [if_neg hdev]
  have habs : |0 - (a + b) / 2| = (a + b) / 2 := by
    rw [abs_of_nonpos (by linarith)]
    ring
  rw [habs]
  have hratio : (a + b) / 2 / ((0.5 : ℚ) * ((a + b) / 2)) = 2 := by
    rw [div_eq_iff hdev]
    ring
  rw [hratio]
  have : ((1 : ℚ) - 2) * 100 = -100 := by norm_num
  rw [this]
  have hfl : Int.floor ((-100 : ℚ) * 100 + 1/2) = (-10000 : ℤ) := by
    rw [Int.floor_eq_iff]
    norm_num
  have hr : round2 (-100) = -100 := by
    unfold round2 jsRound
    rw [hfl]
    norm_num
  rw [hr]
  norm_num

/-- C10 witness: a vacancy with salary range 100..200, not negotiable. -/
theorem c10_salary_score_degenerate_witness :
    MatchingService.calculateSalaryScore none
      { experienceMinYears := none, experienceMaxYears := none, educationMinLevel := none,
        locationCity := none, locationState := none, isRemote := false,
        salaryMin := some 100, salaryMax := some 200, salaryIsNegotiable := false } = 0 ∧
    MatchingService.calculateSalaryScore none
      { experienceMinYears := none, experienceMaxYears := none, educationMinLevel := none,
        locationCity := none, locationState := none, isRemote := false,
        salaryMin := some 100, salaryMax := some 200, salaryIsNegotiable := false } =
      MatchingService.calculateSalaryScore
        (some { city := some "Tashkent", state := some "Tashkent" })
        { experienceMinYears := none, experienceMaxYears := none, educationMinLevel := none,
          locationCity := none, locationState := none, isRemote := false,
          salaryMin := some 100, salaryMax := some 200, salaryIsNegotiable := false } :=
  c10_salary_score_degenerate none
    (some { city := some "Tashkent", state := some "Tashkent" }) _
    rfl (by decide) (by norm_num [numOr])

/-- C6: `releaseLock` deletes the lock entry iff the stored holder token equals
the releaser's token; when the tokens differ or no lock exists for the key,
the whole lock store is left unchanged, so a lock reacquired by a different
owner after lease expiry is never released by the old owner. -/
theorem c6_release_lock_compare_and_delete
    (st : MatchingCacheService.LockStore) (key owner : String) :
    (st ("lock:" ++ key) = some owner →
      MatchingCacheService.releaseLock st key owner ("lock:" ++ key) = none ∧
      ∀ k, k ≠ "lock:" ++ key → MatchingCacheService.releaseLock st key owner k = st k) ∧
    (st ("lock:" ++ key) ≠ some owner →
      MatchingCacheService.releaseLock st key owner = st) := by
  constructor
  · intro h
    constructor
    · simp [MatchingCacheService.releaseLock, h]
    · intro k hk
      simp [MatchingCacheService.releaseLock, h, hk]
  · intro h
    simp [MatchingCacheService.releaseLock, h]

/-- C6 witness: a store holding the lock for `cacheKey` with token `tokA`:
the matching release deletes it and preserves other keys; a store holding
`tokB` is untouched by `tokA`'s release. -/
theorem c6_release_lock_compare_and_delete_witness :
    ((fun k => if k = "lock:" ++ "cacheKey" then some "tokA" else none :
        MatchingCacheService.LockStore) ("lock:" ++ "cacheKey") = some "tokA" ∧
      MatchingCacheService.releaseLock
        (fun k => if k = "lock:" ++ "cacheKey" then some "tokA" else none)
        "cacheKey" "tokA" ("lock:" ++ "cacheKey") = none) ∧
    ((fun k => if k = "lock:" ++ "cacheKey" then some "tokB" else none :
        MatchingCacheService.LockStore) ("lock:" ++ "cacheKey") ≠ some "tokA" ∧
      MatchingCacheService.releaseLock
        (fun k => if k = "lock:" ++ "cacheKey" then some "tokB" else none)
        "cacheKey" "tokA" =
        (fun k => if k = "lock:" ++ "cacheKey" then some "tokB" else none)) := by
  constructor
  · exact ⟨by decide,
      ((c6_release_lock_compare_and_delete
        (fun k => if k = "lock:" ++ "cacheKey" then some "tokA" else none)
        "cacheKey" "tokA").1 (by decide)).1⟩
  · exact ⟨by decide,
      (c6_release_lock_compare_and_delete
        (fun k => if k = "lock:" ++ "cacheKey" then some "tokB" else none)
        "cacheKey" "tokA").2 (by decide)⟩

/-- Helper: a number-or-null that is falsy coerces to the `||` default. -/
theorem numOr_of_falsy (o : Option ℚ) (d : ℚ) (h : numTruthy o = false) : numOr o d = d := by
  cases o with
  | none => rfl
  | some x =>
    have hx : x = 0 := by simpa [numTruthy] using h
    simp [numOr, hx]

/-- C3 counterexample: on a vacancy declaring neither a minimum nor a maximum
experience requirement, the single-pair path returns 100 (missing bounds
default to the range [0, 10] and an empty experience list totals 0 years), not
the neutral 50 the claim asserts for both paths. -/
theorem c3_counterexample :
    MatchingService.calculateExperienceScore [] emptyVacancy 2025 ≠ 50 ∧
    MatchingService.calculateExperienceScore [] emptyVacancy 2025 = 100 := by
  have h : MatchingService.calculateExperienceScore [] emptyVacancy 2025 = 100 := by
    norm_num [MatchingService.calculateExperienceScore, emptyVacancy, numOr,
      totalExperienceYears]
  refine ⟨by rw [h]; norm_num, h⟩

/-- C3 amended: if the vacancy declares neither a minimum nor a maximum
experience requirement (both falsy), the batch path's experience sub-score is
50 for every worker experience list; the single-pair path instead defaults the
bounds to 0 and 10 years, returning 100 exactly when the worker's total
experience years lie within [0, 10] (in particular it is not 50). -/
theorem c3_experience_neutral_amended (workerExperience : List WorkerExperience)
    (vacancy : Vacancy) (currentYear : ℚ)
    (hmin : numTruthy vacancy.experienceMinYears = false)
    (hmax : numTruthy vacancy.experienceMaxYears = false) :
    MatchingRepository.calculateExperienceScore workerExperience vacancy currentYear = 50 ∧
    (0 ≤ totalExperienceYears workerExperience currentYear →
      totalExperienceYears workerExperience currentYear ≤ 10 →
      MatchingService.calculateExperienceScore workerExperience vacancy currentYear = 100) := by
  constructor
  · unfold MatchingRepository.calculateExperienceScore
    rw [if_pos]
    simp [hmin, hmax]
  · intro h0 h10
    simp only [MatchingService.calculateExperienceScore,
      numOr_of_falsy _ _ hmin, numOr_of_falsy _ _ hmax]
    norm_num [h0, h10]

/-- C3 witness: the empty experience list against a vacancy with no declared
bounds — batch path 50, single-pair path 100. -/
theorem c3_experience_neutral_amended_witness :
    MatchingRepository.calculateExperienceScore [] emptyVacancy 2025 = 50 ∧
    MatchingService.calculateExperienceScore [] emptyVacancy 2025 = 100 :=
  ⟨(c3_experience_neutral_amended [] emptyVacancy 2025 (by decide) (by decide)).1,
    (c3_experience_neutral_amended [] emptyVacancy 2025 (by decide) (by decide)).2
      (by decide) (by decide)⟩

/-- C5: `setWorkerMatches` and `setVacancyMatches` write exactly the sorted,
truncated, restamped list under their key (writing nothing for an empty
input), and that persisted list always has at most 50 entries and is sorted
descending by `totalScore`. -/
theorem c5_cache_truncation_sorted (st : MatchingCacheService.CacheStore)
    (id : String) (ms : List MatchingCacheService.CachedMatchScore) (now : String) :
    MatchingCacheService.setWorkerMatches st id ms now ("worker:" ++ id) =
      (if ms.length = 0 then st ("worker:" ++ id)
        else some (MatchingCacheService.truncSortStamp ms now)) ∧
    MatchingCacheService.setVacancyMatches st id ms now ("vacancy:" ++ id) =
      (if ms.length = 0 then st ("vacancy:" ++ id)
        else some (MatchingCacheService.truncSortStamp ms now)) ∧
    (MatchingCacheService.truncSortStamp ms now).length ≤ 50 ∧
    List.Sorted MatchingCacheService.byScoreDesc (MatchingCacheService.truncSortStamp ms now) := by
  refine ⟨?_, ?_, ?_, ?_⟩
  · by_cases h : ms.length = 0 <;> simp [MatchingCacheService.setWorkerMatches, h]
  · by_cases h : ms.length = 0 <;> simp [MatchingCacheService.setVacancyMatches, h]
  · simp [MatchingCacheService.truncSortStamp]
  · have hs : List.Sorted MatchingCacheService.byScoreDesc
        (List.insertionSort MatchingCacheService.byScoreDesc ms) :=
      List.sorted_insertionSort MatchingCacheService.byScoreDesc ms
    have ht : List.Sorted MatchingCacheService.byScoreDesc
        ((List.insertionSort MatchingCacheService.byScoreDesc ms).take 50) :=
      List.Pairwise.sublist (List.take_sublist 50 _) hs
    unfold MatchingCacheService.truncSortStamp
    rw [List.Sorted, List.pairwise_map]
    exact ht

/-- Helper: `round2` of an integer is that integer. -/
theorem round2_int (n : ℤ) : round2 (n : ℚ) = n := by
  unfold round2 jsRound
  have h : Int.floor ((n : ℚ) * 100 + 1/2) = n * 100 := by
    rw [Int.floor_eq_iff]
    constructor
    · push_cast
      linarith
    · push_cast
      linarith
  rw [h]
  push_cast
  field_simp

/-- Helper: `round2` maps [0, 100] into [0, 100]. -/
theorem round2_bounds {x : ℚ} (h0 : 0 ≤ x) (h1 : x ≤ 100) : inBounds (round2 x) := by
  unfold inBounds round2 jsRound
  constructor
  · apply div_nonneg _ (by norm_num)
    have h : (0 : ℤ) ≤ Int.floor (x * 100 + 1/2) := Int.le_floor.mpr (by push_cast; linarith)
    exact_mod_cast h
  · rw [div_le_iff₀ (by norm_num : (0:ℚ) < 100)]
    have h2 : Int.floor (x * 100 + 1/2) ≤ Int.floor ((10000 : ℚ) + 1/2) :=
      Int.floor_le_floor (by linarith)
    have h3 : Int.floor ((10000 : ℚ) + 1/2) = 10000 := by
      rw [Int.floor_eq_iff]
      constructor <;> norm_num
    have h4 : Int.floor (x * 100 + 1/2) ≤ 10000 := by omega
    calc ((Int.floor (x * 100 + 1/2) : ℤ) : ℚ) ≤ (10000 : ℚ) := by exact_mod_cast h4
      _ = 100 * 100 := by norm_num

/-- Helper: with pairwise-distinct worker skill codes, the matched-skill count
is at most the vacancy-skill count. -/
theorem length_filter_matched_le (ws : List WorkerSkill) (vs : List VacancySkill)
    (h : (ws.map WorkerSkill.skillCode).Nodup) :
    (ws.filter (fun w => vs.any (fun v => v.skillCode == w.skillCode))).length ≤ vs.length := by
  have hsub : ((ws.filter (fun w => vs.any (fun v => v.skillCode == w.skillCode))).map
      WorkerSkill.skillCode) ⊆ (vs.map VacancySkill.skillCode) := by
    intro c hc
    rw [List.mem_map] at hc
    obtain ⟨w, hw, rfl⟩ := hc
    rw [List.mem_filter] at hw
    obtain ⟨-, hany⟩ := hw
    rw [List.any_eq_true] at hany
    obtain ⟨v, hv, hbeq⟩ := hany
    rw [List.mem_map]
    exact ⟨v, hv, by simpa using hbeq⟩
  have hnd : ((ws.filter (fun w => vs.any (fun v => v.skillCode == w.skillCode))).map
      WorkerSkill.skillCode).Nodup :=
    List.Nodup.sublist (List.Sublist.map _ (List.filter_sublist ws)) h
  have hlen := (List.Nodup.subperm hnd hsub).length_le
  simpa using hlen

/-- Helper: the single-pair skill score is always within [0, 100] (the ratio
is capped at 1). -/
theorem service_skill_inBounds (ws : List WorkerSkill) (vs rs : List VacancySkill) :
    inBounds (MatchingService.calculateSkillScore ws vs rs) := by
  simp only [MatchingService.calculateSkillScore]
  split_ifs with h1 h2
  · exact ⟨by norm_num, by norm_num⟩
  · exact ⟨by norm_num, by norm_num⟩
  · apply round2_bounds
    · apply mul_nonneg _ (by norm_num)
      exact le_min (div_nonneg (Nat.cast_nonneg _) (Nat.cast_nonneg _)) zero_le_one
    · calc min ((((ws.filter (fun w => vs.any (fun v => v.skillCode == w.skillCode))).length : ℚ)) /
            ((rs.length : ℚ))) 1 * 100 ≤ 1 * 100 := by
            apply mul_le_mul_of_nonneg_right (min_le_right _ _) (by norm_num)
        _ = 100 := by norm_num

/-- Helper: with pairwise-distinct worker skill codes, the batch skill score is
within [0, 100]. -/
theorem repo_skill_inBounds (ws : List WorkerSkill) (vs : List VacancySkill)
    (h : (ws.map WorkerSkill.skillCode).Nodup) :
    inBounds (MatchingRepository.calculateSkillScore ws vs) := by
  simp only [MatchingRepository.calculateSkillScore]
  split_ifs with h1
  · exact ⟨by norm_num, by norm_num⟩
  · apply round2_bounds
    · exact mul_nonneg (div_nonneg (Nat.cast_nonneg _) (Nat.cast_nonneg _)) (by norm_num)
    · have hpos : (0:ℚ) < (vs.length : ℚ) := by
        exact_mod_cast Nat.pos_of_ne_zero h1
      have hr : (((ws.filter (fun w => vs.any (fun v => v.skillCode == w.skillCode))).length : ℚ)) /
          ((vs.length : ℚ)) ≤ 1 := by
        rw [div_le_one hpos]
        exact_mod_cast length_filter_matched_le ws vs h
      calc (((ws.filter (fun w => vs.any (fun v => v.skillCode == w.skillCode))).length : ℚ)) /
            ((vs.length : ℚ)) * 100 ≤ 1 * 100 := by
            apply mul_le_mul_of_nonneg_right hr (by norm_num)
        _ = 100 := by norm_num

/-- Helper: the defaulted experience minimum is nonnegative under validated
inputs. -/
theorem numOr_nonneg (o : Option ℚ) (d : ℚ) (ho : ∀ x, o = some x → 0 ≤ x) (hd : 0 ≤ d) :
    0 ≤ numOr o d := by
  cases h : o with
  | none => simpa [numOr] using hd
  | some x =>
    simp only [numOr]
    split_ifs with h0
    · exact hd
    · exact ho x h

/-- Helper: the single-pair experience score is within [0, 100] whenever the
declared bounds are nonnegative (as input validation enforces). -/
theorem service_exp_inBounds (exps : List WorkerExperience) (v : Vacancy) (cy : ℚ)
    (hmin : ∀ x, v.experienceMinYears = some x → 0 ≤ x)
    (hmax : ∀ x, v.experienceMaxYears = some x → 0 ≤ x) :
    inBounds (MatchingService.calculateExperienceScore exps v cy) := by
  have hminN : 0 ≤ numOr v.experienceMinYears 0 := numOr_nonneg _ _ hmin le_rfl
  have hmaxN : 0 ≤ numOr v.experienceMaxYears (numOr v.experienceMinYears 0 + 10) :=
    numOr_nonneg _ _ hmax (by linarith)
  simp only [MatchingService.calculateExperienceScore]
  split_ifs with h1 h2 h3 h4 h5
  · exact ⟨by norm_num, by norm_num⟩
  · exact ⟨by norm_num, by norm_num⟩
  · exact ⟨by norm_num, by norm_num⟩
  · refine ⟨le_max_left _ _, max_le (by norm_num) ?_⟩
    have hq : 0 ≤ (numOr v.experienceMinYears 0 - totalExperienceYears exps cy) /
        numOr v.experienceMinYears 0 :=
      div_nonneg (by linarith) hminN
    nlinarith
  · exact ⟨by norm_num, by norm_num⟩
  · refine ⟨le_max_left _ _, max_le (by norm_num) ?_⟩
    push_neg at h2
    have ht : numOr v.experienceMaxYears (numOr v.experienceMinYears 0 + 10) <
        totalExperienceYears exps cy := h2 (le_of_not_lt h3)
    have hq : 0 ≤ (totalExperienceYears exps cy -
        numOr v.experienceMaxYears (numOr v.experienceMinYears 0 + 10)) /
        numOr v.experienceMaxYears (numOr v.experienceMinYears 0 + 10) :=
      div_nonneg (by linarith) hmaxN
    nlinarith

/-- Helper: the batch experience score is within [0, 100] unconditionally. -/
theorem repo_exp_inBounds (exps : List WorkerExperience) (v : Vacancy) (cy : ℚ) :
    inBounds (MatchingRepository.calculateExperienceScore exps v cy) := by
  simp only [MatchingRepository.calculateExperienceScore]
  split_ifs with h1 h2 h3
  · exact ⟨by norm_num, by norm_num⟩
  · refine ⟨le_max_left _ _, max_le (by norm_num) ?_⟩
    obtain ⟨-, hlt⟩ := h2
    nlinarith
  · refine ⟨le_max_left _ _, max_le (by norm_num) ?_⟩
    obtain ⟨-, hlt⟩ := h3
    nlinarith
  · exact ⟨by norm_num, by norm_num⟩

/-- Helper: `levelIndexOf` is either the absent marker -1 or a nonnegative
index. -/
theorem levelIndexOf_cases (s : String) : levelIndexOf s = -1 ∨ 0 ≤ levelIndexOf s := by
  unfold levelIndexOf
  cases h : educationLevels.findIdx? (fun t => t == s) with
  | none => exact Or.inl rfl
  | some i => exact Or.inr (Int.natCast_nonneg i)

/-- Helper: the single-pair education score is within [0, 100]. -/
theorem service_edu_inBounds (edus : List WorkerEducation) (v : Vacancy) :
    inBounds (MatchingService.calculateEducationScore edus v) := by
  simp only [MatchingService.calculateEducationScore]
  split_ifs with h1 h2 h3
  · exact ⟨by norm_num, by norm_num⟩
  · exact ⟨by norm_num, by norm_num⟩
  · refine ⟨le_max_left _ _, ?_⟩
    rcases levelIndexOf_cases (v.educationMinLevel.getD "") with hc | hc
    · exact absurd hc h2
    · have hq : (0:ℚ) ≤ (levelIndexOf (v.educationMinLevel.getD "") : ℚ) := by exact_mod_cast hc
      apply max_le (by norm_num)
      linarith
  · exact ⟨by norm_num, by norm_num⟩

/-- Helper: the batch education score is within [0, 100]. -/
theorem repo_edu_inBounds (edus : List WorkerEducation) (v : Vacancy) :
    inBounds (MatchingRepository.calculateEducationScore edus v) := by
  simp only [MatchingRepository.calculateEducationScore]
  split_ifs with h1 h2 h3
  · exact ⟨by norm_num, by norm_num⟩
  · exact ⟨by norm_num, by norm_num⟩
  · refine ⟨le_max_left _ _, ?_⟩
    rcases levelIndexOf_cases (v.educationMinLevel.getD "") with hc | hc
    · exact absurd hc h2
    · have hq : (0:ℚ) ≤ (levelIndexOf (v.educationMinLevel.getD "") : ℚ) := by exact_mod_cast hc
      apply max_le (by norm_num)
      linarith
  · exact ⟨by norm_num, by norm_num⟩

/-- Helper: the single-pair location score is within [0, 100]. -/
theorem service_loc_inBounds (wp : Option WorkerProfile) (v : Vacancy) :
    inBounds (MatchingService.calculateLocationScore wp v) := by
  simp only [MatchingService.calculateLocationScore]
  split_ifs <;> exact ⟨by norm_num, by norm_num⟩

/-- Helper: the batch location score is within [0, 100]. -/
theorem repo_loc_inBounds (wp : Option WorkerProfile) (v : Vacancy) :
    inBounds (MatchingRepository.calculateLocationScore wp v) := by
  simp only [MatchingRepository.calculateLocationScore]
  split_ifs <;> exact ⟨by norm_num, by norm_num⟩

/-- Helper: the degenerate distance-from-zero salary formula evaluates to 0 for
every positive midpoint. -/
theorem salary_tail_zero {mid : ℚ} (hmid : 0 < mid) :
    max 0 (round2 ((1 - |0 - mid| / ((0.5:ℚ) * mid)) * 100)) = 0 := by
  have hdev : ((0.5:ℚ) * mid) ≠ 0 := by positivity
  have habs : |0 - mid| = mid := by
    rw [abs_of_nonpos (by linarith)]
    ring
  rw [habs]
  have hratio : mid / ((0.5:ℚ) * mid) = 2 := by
    rw [div_eq_iff hdev]
    ring
  rw [hratio]
  have h1 : ((1:ℚ) - 2) * 100 = ((-100 : ℤ) : ℚ) := by norm_num
  rw [h1, round2_int]
  norm_num

/-- Helper: the single-pair salary score is within [0, 100] whenever the
declared salary bounds are nonnegative (as input validation enforces). -/
theorem service_salary_inBounds (wp : Option WorkerProfile) (v : Vacancy)
    (hsmin : ∀ x, v.salaryMin = some x → 0 ≤ x)
    (hsmax : ∀ x, v.salaryMax = some x → 0 ≤ x) :
    inBounds (MatchingService.calculateSalaryScore wp v) := by
  have ha : 0 ≤ numOr v.salaryMin 0 := numOr_nonneg _ _ hsmin le_rfl
  have hb : 0 ≤ numOr v.salaryMax (numOr v.salaryMin 0 * 2) :=
    numOr_nonneg _ _ hsmax (by linarith)
  simp only [MatchingService.calculateSalaryScore]
  split_ifs with h1 h2 h3 h4
  · exact ⟨by norm_num, by norm_num⟩
  · exact ⟨by norm_num, by norm_num⟩
  · exact ⟨by norm_num, by norm_num⟩
  · exact ⟨by norm_num, by norm_num⟩
  · have hge : (0:ℚ) ≤ (numOr v.salaryMin 0 + numOr v.salaryMax (numOr v.salaryMin 0 * 2)) / 2 :=
      div_nonneg (add_nonneg ha hb) (by norm_num)
    have hmid : 0 < (numOr v.salaryMin 0 + numOr v.salaryMax (numOr v.salaryMin 0 * 2)) / 2 := by
      rcases lt_or_eq_of_le hge with h | h
      · exact h
      · exact absurd (by rw [← h]; norm_num) h4
    rw [salary_tail_zero hmid]
    exact ⟨le_rfl, by norm_num⟩

/-- Helper: the batch salary score is within [0, 100] unconditionally. -/
theorem repo_salary_inBounds (wp : Option WorkerProfile) (v : Vacancy) :
    inBounds (MatchingRepository.calculateSalaryScore wp v) := by
  simp only [MatchingRepository.calculateSalaryScore]
  split_ifs <;> exact ⟨by norm_num, by norm_num⟩

/-- Helper: the weighted, rounded total of five sub-scores in [0, 100] lies in
[0, 100]. -/
theorem total_inBounds {s e d l m : ℚ} (hs : inBounds s) (he : inBounds e)
    (hd : inBounds d) (hl : inBounds l) (hm : inBounds m) :
    inBounds (round2 (s * 0.40 + e * 0.25 + d * 0.15 + l * 0.10 + m * 0.10)) := by
  obtain ⟨hs0, hs1⟩ := hs
  obtain ⟨he0, he1⟩ := he
  obtain ⟨hd0, hd1⟩ := hd
  obtain ⟨hl0, hl1⟩ := hl
  obtain ⟨hm0, hm1⟩ := hm
  apply round2_bounds
  · nlinarith
  · nlinarith

/-- C2 counterexample: in the batch path, a worker holding two skill records
with the same code against a vacancy declaring that one (required) skill gets
skill score `round2(2/1 * 100) = 200`, outside [0, 100] — the batch
`calculateSkillScore` has no cap and divides by the vacancy-skill count. -/
theorem c2_counterexample :
    ¬ (MatchingRepository.calculateSkillScore
      [{ skillCode := "SQL" }, { skillCode := "SQL" }]
      [{ skillCode := "SQL", isRequired := true }] ≤ 100) := by
  have h : MatchingRepository.calculateSkillScore
      [{ skillCode := "SQL" }, { skillCode := "SQL" }]
      [{ skillCode := "SQL", isRequired := true }] = 200 := by
    have e1 : MatchingRepository.calculateSkillScore
        [{ skillCode := "SQL" }, { skillCode := "SQL" }]
        [{ skillCode := "SQL", isRequired := true }] = round2 (((2:ℚ)) / ((1:ℚ)) * 100) := by
      simp [MatchingRepository.calculateSkillScore]
    rw [e1, show ((2:ℚ)) / ((1:ℚ)) * 100 = ((200:ℤ):ℚ) by norm_num, round2_int]
    norm_num
  rw [h]
  norm_num

/-- C2 amended: every sub-score and total score of both paths lies in [0, 100]
for all valid inputs, where validity additionally requires the worker's skill
codes to be pairwise distinct (without that restriction the batch skill score
exceeds 100, see the counterexample) and the declared experience and salary
bounds to be nonnegative (as the input-validation layer enforces). -/
theorem c2_bounds_amended (ws : List WorkerSkill) (edu : List WorkerEducation)
    (exps : List WorkerExperience) (vs : List VacancySkill) (v : Vacancy)
    (wp : Option WorkerProfile) (cy : ℚ)
    (hcodes : (ws.map WorkerSkill.skillCode).Nodup)
    (hemin : ∀ x, v.experienceMinYears = some x → 0 ≤ x)
    (hemax : ∀ x, v.experienceMaxYears = some x → 0 ≤ x)
    (hsmin : ∀ x, v.salaryMin = some x → 0 ≤ x)
    (hsmax : ∀ x, v.salaryMax = some x → 0 ≤ x) :
    AllScoresInBounds ws edu exps vs v wp cy := by
  refine ⟨service_skill_inBounds ws vs _, service_exp_inBounds exps v cy hemin hemax,
    service_edu_inBounds edu v, service_loc_inBounds wp v,
    service_salary_inBounds wp v hsmin hsmax, ?_,
    repo_skill_inBounds ws vs hcodes, repo_exp_inBounds exps v cy,
    repo_edu_inBounds edu v, repo_loc_inBounds wp v, repo_salary_inBounds wp v, ?_⟩
  · have h := total_inBounds (service_skill_inBounds ws vs (vs.filter (fun s => s.isRequired)))
      (service_exp_inBounds exps v cy hemin hemax) (service_edu_inBounds edu v)
      (service_loc_inBounds wp v) (service_salary_inBounds wp v hsmin hsmax)
    simpa [MatchingService.computeScore] using h
  · have h := total_inBounds (repo_skill_inBounds ws vs hcodes)
      (repo_exp_inBounds exps v cy) (repo_edu_inBounds edu v)
      (repo_loc_inBounds wp v) (repo_salary_inBounds wp v)
    simpa [MatchingRepository.calculateScoreComponents] using h

/-- C2 witness: a worker with the single skill SQL against a vacancy requiring
SQL and declaring nothing else. -/
theorem c2_bounds_amended_witness :
    AllScoresInBounds [{ skillCode := "SQL" }] [] [] [{ skillCode := "SQL", isRequired := true }]
      emptyVacancy none 2025 :=
  c2_bounds_amended _ _ _ _ _ _ _ (by decide)
    (by intro x h; simp [emptyVacancy] at h) (by intro x h; simp [emptyVacancy] at h)
    (by intro x h; simp [emptyVacancy] at h) (by intro x h; simp [emptyVacancy] at h)

/-- Helper: the page fetched at page number `page` (1-based) with requested
size 200 has length `min 200 (pop.length - (page-1)*200)`. -/
theorem pageItems_length {α : Type} (pop : List α) (page : ℕ) :
    (Orchestrator.pageItems pop page 200).length = min 200 (pop.length - (page - 1) * 200) := by
  simp [Orchestrator.pageItems]

/-- Helper: the pagination loop, started at any page `page ≥ 1` over a stable
population, computes exactly the length of the not-yet-visited suffix and the
corresponding page count (proved by induction on a fuel bound on the remaining
measure). -/
theorem recalcLoop_eq (n : ℕ) : ∀ (α : Type) (pop : List α) (page : ℕ),
    1 ≤ page → pop.length + 200 - page * 200 ≤ n →
    Orchestrator.recalcLoop pop page =
      ((pop.drop ((page - 1) * 200)).length,
        Orchestrator.pageCount (pop.drop ((page - 1) * 200)).length) := by
  induction n with
  | zero =>
    intro α pop page hp hb
    have hm : pop.length - (page - 1) * 200 = 0 := by omega
    rw [Orchestrator.recalcLoop]
    rw [if_pos (by rw [pageItems_length]; omega)]
    rw [List.length_drop, hm]
    simp [Orchestrator.pageCount]
  | succ n ih =>
    intro α pop page hp hb
    rw [Orchestrator.recalcLoop]
    rcases Nat.lt_or_ge (pop.length - (page - 1) * 200) 200 with hlt | hge
    · rcases Nat.eq_zero_or_pos (pop.length - (page - 1) * 200) with hz | hpos
      · rw [if_pos (by rw [pageItems_length]; omega)]
        rw [List.length_drop, hz]
        simp [Orchestrator.pageCount]
      · rw [if_neg (by rw [pageItems_length]; omega)]
        rw [dif_pos (by rw [pageItems_length]; omega)]
        rw [pageItems_length, List.length_drop]
        simp only [Orchestrator.pageCount, Prod.mk.injEq]
        constructor
        · omega
        · split_ifs <;> omega
    · rw [if_neg (by rw [pageItems_length]; omega)]
      rw [dif_neg (by rw [pageItems_length]; omega)]
      rw [ih α pop (page + 1) (by omega) (by omega)]
      rw [pageItems_length]
      have h2 : (page + 1 - 1) * 200 = (page - 1) * 200 + 200 := by omega
      rw [h2]
      simp only [List.length_drop, Orchestrator.pageCount, Prod.mk.injEq]
      constructor
      · omega
      · split_ifs <;> omega

/-- C7: over every finite, stable population the recalculation loop terminates
(it is a total function of the population) and returns a calculated count
equal to the population size, with the expected number of fetched pages; in
particular over 450 items it fetches 3 pages (200, 200, 50) and returns
`calculated = 450`. -/
theorem c7_pagination_count :
    (∀ (α : Type) (pop : List α),
      Orchestrator.recalcResult pop = (pop.length, Orchestrator.pageCount pop.length)) ∧
    Orchestrator.recalcResult (List.replicate 450 Unit.unit) = (450, 3) := by
  have key : ∀ (α : Type) (pop : List α),
      Orchestrator.recalcResult pop = (pop.length, Orchestrator.pageCount pop.length) := by
    intro α pop
    unfold Orchestrator.recalcResult
    have h := recalcLoop_eq (pop.length + 200) α pop 1 le_rfl (by omega)
    simpa using h
  refine ⟨key, ?_⟩
  rw [key]
  norm_num [Orchestrator.pageCount]

/-- C9 counterexample: with vacancy `v1` present but worker `w1` entirely
missing at computation time (no profile, no skills, no education, no
experience rows), `calculateScore` raises no error: it returns a score
computed from the empty worker data and writes the `(w1, v1)` MatchScore row —
the code checks only the vacancy for existence. -/
theorem c9_counterexample :
    (MatchingService.calculateScore dbNoWorker "w1" "v1" 2025).2.isOk = true ∧
    ((MatchingService.calculateScore dbNoWorker "w1" "v1" 2025).1.matchScores
      ("w1", "v1")).isSome = true := by
  constructor
  · simp [MatchingService.calculateScore, dbNoWorker, Except.isOk, Except.toBool]
  · simp [MatchingService.calculateScore, dbNoWorker]

/-- C9 amended: a direct `calculateScore` call surfaces the distinct
`VACANCY_NOT_FOUND` error exactly when the vacancy is missing at computation
time, and in that case nothing is written — the whole database state is
returned unchanged; when the vacancy exists the call never errs (a missing
worker is scored from empty data rather than rejected). -/
theorem c9_not_found_amended (db : Db) (w v : String) (cy : ℚ) :
    (db.vacancies v = none →
      MatchingService.calculateScore db w v cy =
        (db, Except.error CalcError.vacancyNotFound)) ∧
    (db.vacancies v ≠ none →
      (MatchingService.calculateScore db w v cy).2.isOk = true) := by
  constructor
  · intro h
    simp [MatchingService.calculateScore, h]
  · intro h
    match hv : db.vacancies v with
    | none => exact absurd hv h
    | some vac => simp [MatchingService.calculateScore, hv, Except.isOk, Except.toBool]

/-- C9 witness: querying the missing vacancy `v2` on `dbNoWorker` errs with the
state unchanged; querying the present vacancy `v1` succeeds. -/
theorem c9_not_found_amended_witness :
    MatchingService.calculateScore dbNoWorker "w1" "v2" 2025 =
      (dbNoWorker, Except.error CalcError.vacancyNotFound) ∧
    (MatchingService.calculateScore dbNoWorker "w1" "v1" 2025).2.isOk = true :=
  ⟨(c9_not_found_amended dbNoWorker "w1" "v2" 2025).1 (by simp [dbNoWorker]),
    (c9_not_found_amended dbNoWorker "w1" "v1" 2025).2 (by simp [dbNoWorker])⟩

/-- Helper: restamping a sorted, short, already-stamped list is the identity. -/
theorem truncSortStamp_eq_self (L : List MatchingCacheService.CachedMatchScore) (now : String)
    (hs : List.Sorted MatchingCacheService.byScoreDesc L) (hl : L.length ≤ 50)
    (hstamp : ∀ m ∈ L, m.cachedAt = now) :
    MatchingCacheService.truncSortStamp L now = L := by
  unfold MatchingCacheService.truncSortStamp
  rw [List.Sorted.insertionSort_eq hs, List.take_of_length_le hl]
  have hmap : ∀ (M : List MatchingCacheService.CachedMatchScore),
      (∀ m ∈ M, m.cachedAt = now) →
      M.map (fun m => { m with cachedAt := now }) = M := by
    intro M hM
    induction M with
    | nil => rfl
    | cons a t ih =>
      simp only [List.map_cons]
      rw [ih (fun m hm => hM m (List.mem_cons_of_mem a hm))]
      have ha := hM a (List.mem_cons_self a t)
      cases a
      simp_all
  exact hmap L hstamp

/-- Helper: one protocol step preserves the per-call single-fetch invariant. -/
theorem stepClient_clientOk (L : List MatchingCacheService.CachedMatchScore) (now : String)
    (me : ℕ) (cache : Option (List MatchingCacheService.CachedMatchScore)) (lock : Option ℕ)
    (c : SingleFlight.ClientState) (h : SingleFlight.clientOk c) :
    SingleFlight.clientOk (SingleFlight.stepClient L now me cache lock c).2.2 := by
  obtain ⟨h1, h2⟩ := h
  rcases c with ⟨pc, att, res, f⟩
  cases res with
  | some v => exact ⟨h1, h2⟩
  | none =>
    simp only [SingleFlight.clientOk, Option.isSome_none, Bool.false_eq_true, or_false] at h2
    have h1' : f ≤ 1 := h1
    have h2' : f = 1 → pc = 4 ∨ pc = 8 := h2
    have hf0 : pc ≠ 4 → pc ≠ 8 → f = 0 := by
      intro hp4 hp8
      rcases Nat.lt_or_ge f 1 with hlt | hge
      · omega
      · have hf1 : f = 1 := by omega
        rcases h2' hf1 with hc | hc
        · exact absurd hc hp4
        · exact absurd hc hp8
    rcases pc with _ | _ | _ | _ | _ | _ | _ | _ | _ | pc
    · cases cache <;>
        simp_all [SingleFlight.stepClient, SingleFlight.clientOk] <;> omega
    · cases lock <;>
        simp_all [SingleFlight.stepClient, SingleFlight.clientOk] <;> omega
    · cases cache <;>
        simp_all [SingleFlight.stepClient, SingleFlight.clientOk] <;> omega
    · have hf : f = 0 := hf0 (by omega) (by omega)
      subst hf
      simp [SingleFlight.stepClient, SingleFlight.clientOk]
    · simp_all [SingleFlight.stepClient, SingleFlight.clientOk]
    · simp_all [SingleFlight.stepClient, SingleFlight.clientOk] <;> omega
    · cases cache <;>
        simp_all [SingleFlight.stepClient, SingleFlight.clientOk] <;>
        split_ifs <;> simp_all <;> omega
    · have hf : f = 0 := hf0 (by omega) (by omega)
      subst hf
      simp [SingleFlight.stepClient, SingleFlight.clientOk]
    · simp_all [SingleFlight.stepClient, SingleFlight.clientOk]
    · simp_all [SingleFlight.stepClient, SingleFlight.clientOk]

/-- Helper: one interleaved system step preserves both calls' invariants. -/
theorem step_clientOk (L : List MatchingCacheService.CachedMatchScore) (now : String)
    (s : SingleFlight.SysState) (who : Bool)
    (h0 : SingleFlight.clientOk s.c0) (h1 : SingleFlight.clientOk s.c1) :
    SingleFlight.clientOk (SingleFlight.step L now s who).c0 ∧
    SingleFlight.clientOk (SingleFlight.step L now s who).c1 := by
  cases who with
  | false =>
    refine ⟨?_, ?_⟩
    · exact stepClient_clientOk L now 0 s.cache s.lock s.c0 h0
    · exact h1
  | true =>
    refine ⟨?_, ?_⟩
    · exact h0
    · exact stepClient_clientOk L now 1 s.cache s.lock s.c1 h1

/-- Helper: every run from an invariant-respecting state keeps the invariant. -/
theorem run_clientOk (L : List MatchingCacheService.CachedMatchScore) (now : String)
    (sched : List Bool) : ∀ (s : SingleFlight.SysState),
    SingleFlight.clientOk s.c0 → SingleFlight.clientOk s.c1 →
    SingleFlight.clientOk (SingleFlight.run L now sched s).c0 ∧
    SingleFlight.clientOk (SingleFlight.run L now sched s).c1 := by
  induction sched with
  | nil => intro s h0 h1; exact ⟨h0, h1⟩
  | cons a tl ih =>
    intro s h0 h1
    have hstep := step_clientOk L now s a h0 h1
    simpa [SingleFlight.run, List.foldl_cons] using
      ih (SingleFlight.step L now s a) hstep.1 hstep.2

/-- C8 counterexample: a complete interleaving of two concurrent
`getOrSetVacancyCache` calls from an empty cache and empty lock store in which
the lock winner is paused after its double-check while the loser exhausts all
five lock attempts and takes the uncached fallback: both calls finish, but the
fetcher runs twice — not "exactly one fetcher invocation". -/
theorem c8_counterexample :
    (SingleFlight.run [sampleCached] "t0" SingleFlight.starvedSched
      SingleFlight.init).c0.result.isSome = true ∧
    (SingleFlight.run [sampleCached] "t0" SingleFlight.starvedSched
      SingleFlight.init).c1.result.isSome = true ∧
    SingleFlight.totalFetches (SingleFlight.run [sampleCached] "t0"
      SingleFlight.starvedSched SingleFlight.init) = 2 := by
  refine ⟨?_, ?_, ?_⟩ <;> decide

/-- C8 amended: across every interleaving of the two concurrent calls the
fetcher runs at most once per call — at most once under a successfully
acquired lock, with the only other invocation being the uncached fallback
after the five lock attempts are exhausted — hence at most twice in total;
and under the favourable interleaving in which the lock winner completes its
populate before the loser re-checks, with a nonempty fetched list that is
sorted descending, has at most 50 entries and carries the write-time stamp
(as the production fetcher guarantees), the fetcher runs exactly once and
both calls return the same list. -/
theorem c8_single_flight_amended :
    (∀ (L : List MatchingCacheService.CachedMatchScore) (now : String) (sched : List Bool),
      SingleFlight.totalFetches (SingleFlight.run L now sched SingleFlight.init) ≤ 2) ∧
    (∀ (L : List MatchingCacheService.CachedMatchScore) (now : String),
      L.length ≠ 0 → List.Sorted MatchingCacheService.byScoreDesc L → L.length ≤ 50 →
      (∀ m ∈ L, m.cachedAt = now) →
      SingleFlight.totalFetches
        (SingleFlight.run L now SingleFlight.winnerFirstSched SingleFlight.init) = 1 ∧
      (SingleFlight.run L now SingleFlight.winnerFirstSched SingleFlight.init).c0.result
        = some L ∧
      (SingleFlight.run L now SingleFlight.winnerFirstSched SingleFlight.init).c1.result
        = some L) := by
  constructor
  · intro L now sched
    have hinit : SingleFlight.clientOk SingleFlight.init.c0 ∧
        SingleFlight.clientOk SingleFlight.init.c1 := by
      constructor <;> exact ⟨by simp [SingleFlight.init], by simp [SingleFlight.init]⟩
    have h := run_clientOk L now sched SingleFlight.init hinit.1 hinit.2
    have h0 := h.1.1
    have h1 := h.2.1
    unfold SingleFlight.totalFetches
    omega
  · intro L now hL hs hl hstamp
    have hrun : SingleFlight.run L now SingleFlight.winnerFirstSched SingleFlight.init =
        { cache := some (MatchingCacheService.truncSortStamp L now), lock := none
          c0 := { pc := 8, attempts := 0, result := some L, fetches := 1 }
          c1 := { pc := 0, attempts := 0,
                  result := some (MatchingCacheService.truncSortStamp L now), fetches := 0 } } := by
      simp [SingleFlight.run, SingleFlight.winnerFirstSched, SingleFlight.init,
        SingleFlight.step, SingleFlight.stepClient, List.foldl_cons, List.foldl_nil, hL]
    rw [hrun, truncSortStamp_eq_self L now hs hl hstamp]
    exact ⟨rfl, rfl, rfl⟩

/-- C8 witness: the singleton fetched list `[sampleCached]` under the
sequential winner-first interleaving — one invocation, both calls return it. -/
theorem c8_single_flight_amended_witness :
    SingleFlight.totalFetches (SingleFlight.run [sampleCached] "t0"
      SingleFlight.winnerFirstSched SingleFlight.init) = 1 ∧
    (SingleFlight.run [sampleCached] "t0" SingleFlight.winnerFirstSched
      SingleFlight.init).c0.result = some [sampleCached] ∧
    (SingleFlight.run [sampleCached] "t0" SingleFlight.winnerFirstSched
      SingleFlight.init).c1.result = some [sampleCached] :=
  c8_single_flight_amended.2 [sampleCached] "t0" (by decide) (by decide) (by decide)
    (by decide)
